import Mathlib

set_option maxRecDepth 4096

/-!
Verification development for the `my-dashboard` Streamlit application
(`src/app.py`): a shallow embedding in Lean 4 of its data-ingestion and
repair pipeline (`load_data`, `fix_korean_columns`) and of its analytical
transforms (`filter_by_day_type`, `create_moving_average_chart`,
`create_period_comparison_chart`, `create_weekday_chart`,
`create_correlation_analysis`), together with theorems settling the
frozen specification claims.

Conventions of the embedding:
* Python strings are Lean `String`s (sequences of Unicode code points,
  matching Python's `str`).
* DataFrame cells are modelled by `Cell` (a raw string, an exact rational
  standing for a float, or `na` for `NaN`/`NaT`); numeric aggregation is
  carried out over `ℚ` (floating-point rounding is not modelled).
* Calendar timestamps are `CalDate` (year/month/day of the proleptic
  Gregorian calendar), ordered lexicographically, which agrees with
  chronological order.
* Library calls (`pandas`, `numpy`) are embedded by their documented
  semantics on the value level: `str.replace` as `replaceL`,
  `Series.rolling(w, min_periods=1).mean()` as `rollingMeanOpt`,
  `sort_values` as an insertion sort on row indices, and so on.
-/

/-! ## String utilities (Python `in` and `str.replace`) -/

/-- Membership test for a contiguous character sequence, the model of
Python's `needle in haystack` on strings. -/
def hasInfixL (p : List Char) : List Char → Bool
  | [] => p.isEmpty
  | a :: s => p.isPrefixOf (a :: s) || hasInfixL p s

/-- String wrapper of `hasInfixL`. -/
def hasInfixS (p s : String) : Bool := hasInfixL p.data s.data

/-- Fuel-indexed worker for `replaceL`.  Each step consumes one unit of
fuel and at least one character, so fuel `l.length` always suffices; the
fuel keeps the recursion structural (hence kernel-reducible). -/
def replaceLF (p t : List Char) : Nat → List Char → List Char
  | _, [] => []
  | 0, l => l
  | fuel + 1, a :: s =>
    if p.isPrefixOf (a :: s) ∧ p ≠ [] then
      t ++ replaceLF p t fuel (s.drop (p.length - 1))
    else
      a :: replaceLF p t fuel s

/-- Left-to-right, non-overlapping replacement of the pattern `p` by `t`,
the model of Python's `str.replace` (for a non-empty pattern; the
dashboard's replacement tables contain no empty pattern). -/
def replaceL (p t l : List Char) : List Char := replaceLF p t l.length l

/-- String wrapper of `replaceL`. -/
def replaceS (p t s : String) : String := ⟨replaceL p.data t.data s.data⟩

/-! ## Column-name repair (`fix_korean_columns`) -/

/-- Exact whole-name replacement table (`column_mapping` in
`fix_korean_columns`), transcribed verbatim from the source: the four
garbled channel names, their `(2049)` variants and the garbled date
header, each mapped to the recovered Korean name. -/
def columnMapping : List (String × String) :=
  [ ("ë´ì¤A", "뉴스A"),
    ("JTBCë´ì¤ë£¸", "JTBC뉴스룸"),
    ("MBNë´ì¤7", "MBN뉴스7"),
    ("TVì¡°ì ë´ì¤9", "TV조선뉴스9"),
    ("ë´ì¤A(2049)", "뉴스A(2049)"),
    ("JTBCë´ì¤ë£¸(2049)", "JTBC뉴스룸(2049)"),
    ("MBNë´ì¤7(2049)", "MBN뉴스7(2049)"),
    ("TVì¡°ì ë´ì¤9(2049)", "TV조선뉴스9(2049)"),
    ("ë ì§", "날짜") ]

/-- Ordered fragment replacement table (`replacements` in
`fix_korean_columns`), transcribed verbatim from the source.  The order
is that of the Python `dict` literal, which Python preserves. -/
def fragmentRepls : List (String × String) :=
  [ ("ë´ì¤", "뉴스"),
    ("ë£¸", "룸"),
    ("ì¡°ì ", "조선"),
    ("ì§", "지"),
    ("ì", ""),
    ("ë", ""),
    ("¤", ""),
    ("¸", ""),
    ("£", "") ]

/-- Stage one of the repair: `df.rename(columns=column_mapping)`, which
replaces a column name only on an exact whole-name match. -/
def renameExact (name : String) : String :=
  (columnMapping.lookup name).getD name

/-- Stage two of the repair: the ordered fragment replacements applied
in sequence to a column name. -/
def applyFragments (name : String) : String :=
  fragmentRepls.foldl (fun acc pr => replaceS pr.1 pr.2 acc) name

/-- Whole column-name repair performed by `fix_korean_columns` on each
column name: exact whole-name replacement, then the ordered fragment
replacements. -/
def fixName (name : String) : String := applyFragments (renameExact name)

/-- The already-correct known channel names (the four channels, their
`(2049)` demographic variants) and the recovered date header. -/
def knownCorrectNames : List String :=
  [ "뉴스A", "JTBC뉴스룸", "MBN뉴스7", "TV조선뉴스9",
    "뉴스A(2049)", "JTBC뉴스룸(2049)", "MBN뉴스7(2049)", "TV조선뉴스9(2049)",
    "날짜" ]

/-! ## Properties of the replacement machinery -/

/-- Characters of a replacement result come from the target or the
input. -/
theorem mem_of_mem_replaceLF {c : Char} {p t : List Char} :
    ∀ {fuel : Nat} {l : List Char}, c ∈ replaceLF p t fuel l → c ∈ t ∨ c ∈ l
  | _, [], h => by simp [replaceLF] at h
  | 0, _ :: _, h => Or.inr h
  | fuel + 1, a :: s, h => by
    rw [replaceLF] at h
    split at h
    · rcases List.mem_append.mp h with h' | h'
      · exact Or.inl h'
      · rcases mem_of_mem_replaceLF h' with h'' | h''
        · exact Or.inl h''
        · exact Or.inr (List.mem_cons_of_mem a (List.mem_of_mem_drop h''))
    · rcases List.mem_cons.mp h with h' | h'
      · exact Or.inr (h' ▸ List.mem_cons_self a s)
      · rcases mem_of_mem_replaceLF h' with h'' | h''
        · exact Or.inl h''
        · exact Or.inr (List.mem_cons_of_mem a h'')

/-- Replacing the single-character pattern `[c]` by the empty target
removes every occurrence of `c` (given enough fuel). -/
theorem not_mem_replaceLF_single {c : Char} :
    ∀ {fuel : Nat} {l : List Char}, l.length ≤ fuel → c ∉ replaceLF [c] [] fuel l
  | _, [], _ => by simp [replaceLF]
  | 0, a :: s, h => by simp at h
  | fuel + 1, a :: s, h => by
    rw [replaceLF]
    split
    · next hc =>
      simp only [List.length_cons, Nat.succ_le_succ_iff] at h
      simpa using not_mem_replaceLF_single (l := s) h
    · next hc =>
      simp only [List.isPrefixOf, List.isPrefixOf_nil_left, Bool.and_true, ne_eq,
        reduceCtorEq, not_false_eq_true, and_true, Bool.not_eq_true, beq_eq_false_iff_ne] at hc
      simp only [List.length_cons, Nat.succ_le_succ_iff] at h
      exact List.not_mem_cons_of_ne_of_not_mem hc (not_mem_replaceLF_single h)

/-- Replacement is the identity when some pattern character is absent
from the input. -/
theorem replaceLF_eq_of_not_mem {c : Char} {p t : List Char} (hp : c ∈ p) :
    ∀ {fuel : Nat} {l : List Char}, c ∉ l → replaceLF p t fuel l = l
  | _, [], _ => by simp [replaceLF]
  | 0, _ :: _, _ => rfl
  | fuel + 1, a :: s, h => by
    rw [replaceLF]
    split
    · next hc =>
      exact absurd ((List.isPrefixOf_iff_prefix.mp hc.1).subset hp) h
    · next hc =>
      rw [replaceLF_eq_of_not_mem hp (fun h' => h (List.mem_cons_of_mem a h'))]

/-- Characters of `replaceS` output come from the target or the input. -/
theorem not_mem_replaceS {c : Char} {p t s : String} (ht : c ∉ t.data)
    (hs : c ∉ s.data) : c ∉ (replaceS p t s).data := fun h =>
  (mem_of_mem_replaceLF h).elim ht hs

/-- Deleting a single character via `replaceS` removes it completely. -/
theorem not_mem_replaceS_single {c : Char} {p s : String} (hp : p.data = [c]) :
    c ∉ (replaceS p "" s).data := by
  simpa [replaceS, replaceL, hp] using
    not_mem_replaceLF_single (c := c) (l := s.data) le_rfl

/-- Identity of `replaceS` when a pattern character is absent. -/
theorem replaceS_eq_of_not_mem {p t s : String} {c : Char} (hp : c ∈ p.data)
    (hs : c ∉ s.data) : replaceS p t s = s := by
  cases s with
  | mk l =>
    simp only [replaceS, replaceL]
    rw [replaceLF_eq_of_not_mem hp hs]

/-- Unfolded form of `applyFragments`: the nine ordered replacements. -/
theorem applyFragments_eq (s : String) :
    applyFragments s =
      replaceS "£" "" (replaceS "¸" "" (replaceS "¤" "" (replaceS "ë" ""
        (replaceS "ì" "" (replaceS "ì§" "지" (replaceS "ì¡°ì " "조선"
        (replaceS "ë£¸" "룸" (replaceS "ë´ì¤" "뉴스" s)))))))) := rfl

/-- Invariant of the fragment pass: its output never contains any of the
five corruption marker characters that the pass deletes ('ì', 'ë', '¤',
'¸', '£').  Every replacement source of `fix_korean_columns` contains one
of these characters, which is what makes the repair idempotent. -/
theorem applyFragments_no_banned (s : String) :
    'ì' ∉ (applyFragments s).data ∧ 'ë' ∉ (applyFragments s).data ∧
    '¤' ∉ (applyFragments s).data ∧ '¸' ∉ (applyFragments s).data ∧
    '£' ∉ (applyFragments s).data := by
  rw [applyFragments_eq]
  refine ⟨?_, ?_, ?_, ?_, ?_⟩
  · exact not_mem_replaceS (by decide) (not_mem_replaceS (by decide)
      (not_mem_replaceS (by decide) (not_mem_replaceS (by decide)
      (not_mem_replaceS_single (by decide)))))
  · exact not_mem_replaceS (by decide) (not_mem_replaceS (by decide)
      (not_mem_replaceS (by decide) (not_mem_replaceS_single (by decide))))
  · exact not_mem_replaceS (by decide) (not_mem_replaceS (by decide)
      (not_mem_replaceS_single (by decide)))
  · exact not_mem_replaceS (by decide) (not_mem_replaceS_single (by decide))
  · exact not_mem_replaceS_single (by decide)

/-- Helper: a string that contains a character `c` differs from a string
that does not. -/
theorem beq_false_of_mem_not_mem {c : Char} {a b : String} (ha : c ∈ a.data)
    (hb : c ∉ b.data) : (b == a) = false :=
  beq_eq_false_iff_ne.mpr fun h => hb (h ▸ ha)

/-- A name free of the corruption markers is a fixed point of the exact
whole-name stage: every key of `column_mapping` contains 'ë' or 'ì'. -/
theorem renameExact_eq_of_no_banned {r : String} (hEC : 'ì' ∉ r.data)
    (hEB : 'ë' ∉ r.data) : renameExact r = r := by
  have k1 := beq_false_of_mem_not_mem (a := "ë´ì¤A") (by decide) hEB
  have k2 := beq_false_of_mem_not_mem (a := "JTBCë´ì¤ë£¸") (by decide) hEB
  have k3 := beq_false_of_mem_not_mem (a := "MBNë´ì¤7") (by decide) hEB
  have k4 := beq_false_of_mem_not_mem (a := "TVì¡°ì ë´ì¤9") (by decide) hEC
  have k5 := beq_false_of_mem_not_mem (a := "ë´ì¤A(2049)") (by decide) hEB
  have k6 := beq_false_of_mem_not_mem (a := "JTBCë´ì¤ë£¸(2049)") (by decide) hEB
  have k7 := beq_false_of_mem_not_mem (a := "MBNë´ì¤7(2049)") (by decide) hEB
  have k8 := beq_false_of_mem_not_mem (a := "TVì¡°ì ë´ì¤9(2049)") (by decide) hEC
  have k9 := beq_false_of_mem_not_mem (a := "ë ì§") (by decide) hEB
  simp only [renameExact, columnMapping, List.lookup, k1, k2, k3, k4, k5, k6,
    k7, k8, k9, Option.getD_none]

/-- A name free of the corruption markers is a fixed point of the
fragment stage: every fragment pattern contains one of the five marker
characters. -/
theorem applyFragments_eq_of_no_banned {r : String} (hEC : 'ì' ∉ r.data)
    (hEB : 'ë' ∉ r.data) (hA4 : '¤' ∉ r.data) (hB8 : '¸' ∉ r.data)
    (hA3 : '£' ∉ r.data) : applyFragments r = r := by
  rw [applyFragments_eq]
  rw [replaceS_eq_of_not_mem (c := 'ë') (by decide) hEB]
  rw [replaceS_eq_of_not_mem (c := 'ë') (by decide) hEB]
  rw [replaceS_eq_of_not_mem (c := 'ì') (by decide) hEC]
  rw [replaceS_eq_of_not_mem (c := 'ì') (by decide) hEC]
  rw [replaceS_eq_of_not_mem (c := 'ì') (by decide) hEC]
  rw [replaceS_eq_of_not_mem (c := 'ë') (by decide) hEB]
  rw [replaceS_eq_of_not_mem (c := '¤') (by decide) hA4]
  rw [replaceS_eq_of_not_mem (c := '¸') (by decide) hB8]
  rw [replaceS_eq_of_not_mem (c := '£') (by decide) hA3]

/-- Column-name repair is idempotent on every string. -/
theorem fixName_fixName (x : String) : fixName (fixName x) = fixName x := by
  obtain ⟨h1, h2, h3, h4, h5⟩ := applyFragments_no_banned (renameExact x)
  have h1' : 'ì' ∉ (fixName x).data := h1
  have h2' : 'ë' ∉ (fixName x).data := h2
  have h3' : '¤' ∉ (fixName x).data := h3
  have h4' : '¸' ∉ (fixName x).data := h4
  have h5' : '£' ∉ (fixName x).data := h5
  show applyFragments (renameExact (fixName x)) = fixName x
  rw [renameExact_eq_of_no_banned h1' h2']
  exact applyFragments_eq_of_no_banned h1' h2' h3' h4' h5'

/-- C3: Column-name repair (exact whole-name replacements followed by
ordered fragment replacements) is idempotent — `repair(repair(x)) ==
repair(x)` for every column-name string — and is the identity on every
already-correct known channel name (the four channel names, their
demographic (2049) variants, and the date header). -/
theorem c3_repair_idempotent_and_identity :
    (∀ x : String, fixName (fixName x) = fixName x) ∧
    knownCorrectNames.all (fun n => fixName n == n) = true :=
  ⟨fixName_fixName, by decide⟩

/-! ## Calendar dates

Timestamps are modelled by proleptic-Gregorian year/month/day triples,
ordered lexicographically (which coincides with chronological order).
`daysFromCivil` is the standard civil-from-days algorithm used to obtain
the day of week, with floor division throughout. -/

/-- A calendar date (pandas `Timestamp` at day resolution). -/
structure CalDate where
  y : Int
  m : Nat
  d : Nat
deriving DecidableEq, Repr

/-- Gregorian leap-year rule. -/
def isLeap (y : Int) : Bool := y % 4 == 0 && (y % 100 != 0 || y % 400 == 0)

/-- Length of month `m` in year `y`. -/
def monthLen (y : Int) (m : Nat) : Nat :=
  if m = 2 then (if isLeap y then 29 else 28)
  else if m = 4 ∨ m = 6 ∨ m = 9 ∨ m = 11 then 30 else 31

/-- Successor day in the calendar. -/
def CalDate.nextDay (dt : CalDate) : CalDate :=
  if dt.d < monthLen dt.y dt.m then ⟨dt.y, dt.m, dt.d + 1⟩
  else if dt.m < 12 then ⟨dt.y, dt.m + 1, 1⟩
  else ⟨dt.y + 1, 1, 1⟩

/-- Advance a date by `n` days. -/
def addDays (dt : CalDate) : Nat → CalDate
  | 0 => dt
  | n + 1 => (addDays dt n).nextDay

/-- Model of `pd.date_range(start, periods=n, freq="D")`. -/
def dateRangeFrom (start : CalDate) (n : Nat) : List CalDate :=
  (List.range n).map (addDays start)

/-- Lexicographic (= chronological) non-strict order on dates. -/
def CalDate.leB (a b : CalDate) : Bool :=
  a.y < b.y || (a.y == b.y && (a.m < b.m || (a.m == b.m && a.d ≤ b.d)))

/-- Lexicographic (= chronological) strict order on dates. -/
def CalDate.ltB (a b : CalDate) : Bool :=
  a.y < b.y || (a.y == b.y && (a.m < b.m || (a.m == b.m && a.d < b.d)))

/-- Days since 1970-01-01 (Howard Hinnant's days-from-civil algorithm,
floor division). -/
def daysFromCivil (dt : CalDate) : Int :=
  let yAdj : Int := if dt.m ≤ 2 then dt.y - 1 else dt.y
  let mp : Int := if dt.m ≤ 2 then (dt.m : Int) + 9 else (dt.m : Int) - 3
  let era : Int := Int.fdiv yAdj 400
  let yoe : Int := yAdj - era * 400
  let doy : Int := Int.fdiv (153 * mp + 2) 5 + (dt.d : Int) - 1
  let doe : Int := yoe * 365 + Int.fdiv yoe 4 - Int.fdiv yoe 100 + doy
  era * 146097 + doe - 719468

/-- Day of week with Monday = 0 .. Sunday = 6 (pandas
`Series.dt.dayofweek`); 1970-01-01 was a Thursday (= 3). -/
def weekdayOf (dt : CalDate) : Nat := ((daysFromCivil dt + 3).emod 7).toNat

/-- English weekday name (pandas `Series.dt.day_name()`). -/
def weekdayName (w : Nat) : String :=
  [ "Monday", "Tuesday", "Wednesday", "Thursday", "Friday", "Saturday",
    "Sunday" ].getD w ""

/-- Model of `date - pd.DateOffset(months=k)`: shift the month, clamping
the day to the target month's length. -/
def subMonths (dt : CalDate) (k : Nat) : CalDate :=
  let total : Int := dt.y * 12 + ((dt.m : Int) - 1) - k
  let y := Int.fdiv total 12
  let m := (Int.emod total 12).toNat + 1
  ⟨y, m, min dt.d (monthLen y m)⟩

/-- Model of `date - pd.DateOffset(years=k)`: shift the year, clamping
the day (Feb 29 → Feb 28). -/
def subYears (dt : CalDate) (k : Nat) : CalDate :=
  ⟨dt.y - k, dt.m, min dt.d (monthLen (dt.y - k) dt.m)⟩

example : weekdayOf ⟨2023, 1, 1⟩ = 6 := by decide
example : weekdayOf ⟨2023, 1, 2⟩ = 0 := by decide
example : weekdayOf ⟨1970, 1, 1⟩ = 3 := by decide
example : addDays ⟨2023, 2, 28⟩ 1 = ⟨2023, 3, 1⟩ := by decide
example : addDays ⟨2024, 2, 28⟩ 1 = ⟨2024, 2, 29⟩ := by decide
example : subMonths ⟨2023, 3, 31⟩ 1 = ⟨2023, 2, 28⟩ := by decide
example : subMonths ⟨2023, 1, 15⟩ 3 = ⟨2022, 10, 15⟩ := by decide
example : subYears ⟨2024, 2, 29⟩ 1 = ⟨2023, 2, 28⟩ := by decide

/-! ## Cells and numeric coercion -/

/-- A DataFrame cell: a raw string, an (exact) numeric value, or a
missing value (`NaN`/`NaT`). -/
inductive Cell where
  | str (v : String)
  | num (v : ℚ)
  | na
deriving DecidableEq, Repr

/-- Value of a decimal digit character. -/
def digit? (c : Char) : Option Nat :=
  if c.isDigit then some (c.toNat - 48) else none

/-- Accumulate a base-10 digit string; fails on a non-digit. -/
def digitsValAux : List Char → Nat → Option Nat
  | [], acc => some acc
  | c :: r, acc =>
    match digit? c with
    | some d => digitsValAux r (10 * acc + d)
    | none => none

/-- Split a character list at the first '.', if any. -/
def splitDot : List Char → List Char × Option (List Char)
  | [] => ([], none)
  | c :: r =>
    if c = '.' then ([], some r)
    else
      let p := splitDot r
      (c :: p.1, p.2)

/-- Model of `pd.to_numeric(·, errors="coerce")` on one string cell:
parses an optionally signed decimal literal, yielding `none` (coerced to
`NaN`) on anything else. -/
def toNumeric (s : String) : Option ℚ :=
  let signed : Int × List Char :=
    match s.data with
    | '-' :: r => (-1, r)
    | '+' :: r => (1, r)
    | cs => (1, cs)
  let p := splitDot signed.2
  match p.2 with
  | none =>
    if p.1.isEmpty then none
    else
      match digitsValAux p.1 0 with
      | some n => some ((signed.1 : ℚ) * (n : ℚ))
      | none => none
  | some fp =>
    if p.1.isEmpty ∧ fp.isEmpty then none
    else
      match digitsValAux p.1 0, digitsValAux fp 0 with
      | some n, some f =>
        some ((signed.1 : ℚ) * ((n : ℚ) + (f : ℚ) / (10 : ℚ) ^ fp.length))
      | _, _ => none

example : toNumeric "1.5" = some (3 / 2 : ℚ) := by with_unfolding_all decide
example : toNumeric "-2" = some (-2 : ℚ) := by with_unfolding_all decide
example : toNumeric "abc" = none := by decide
example : toNumeric "" = none := by decide
example : toNumeric "73" = some (73 : ℚ) := by with_unfolding_all decide

set_option maxRecDepth 4096 in
/-- Primary date parse: `pd.to_datetime(col.astype(str), format="%y%m%d",
errors="coerce")` on one cell.  Two-digit years map to 2000–2068 /
1969–1999 (the C-locale `%y` pivot); an invalid month or day coerces to
`NaT` (`none`). -/
def parseCompact (s : String) : Option CalDate :=
  match s.data with
  | [y1, y2, m1, m2, d1, d2] =>
    match digit? y1, digit? y2, digit? m1, digit? m2, digit? d1, digit? d2 with
    | some a, some b, some c, some d, some e, some f =>
      let yy := 10 * a + b
      let mm := 10 * c + d
      let dd := 10 * e + f
      let year : Int := if yy ≤ 68 then 2000 + yy else 1900 + yy
      if 1 ≤ mm ∧ mm ≤ 12 ∧ 1 ≤ dd ∧ dd ≤ monthLen year mm then
        some ⟨year, mm, dd⟩
      else none
    | _, _, _, _, _, _ => none
  | _ => none

example : parseCompact "230101" = some ⟨2023, 1, 1⟩ := by decide
example : parseCompact "abcdef" = none := by decide
example : parseCompact "231301" = none := by decide
example : parseCompact "2023-01-01" = none := by decide

/-- Mean of a list of rationals (`sum / length`; callers guard against
the empty list). -/
def mean (l : List ℚ) : ℚ := l.sum / l.length

/-- NaN-skipping mean of a column slice, as pandas `Series.mean()`:
missing entries are ignored and the mean of no observations is `NaN`
(`none`). -/
def meanOpt (l : List (Option ℚ)) : Option ℚ :=
  let v := l.filterMap id
  if v.isEmpty then none else some (mean v)

/-! ## Encoding recovery (the candidate loop in `load_data`)

The actual byte-level codecs are outside the embedding: the loop is
modelled over its observable effect, a list pairing each candidate
encoding name with `none` (that candidate raised
`UnicodeDecodeError`/`EmptyDataError`) or `some header` (the column
names of the successfully decoded and CSV-parsed frame).  Only the
header participates in the acceptance test, exactly as in the source. -/

/-- Candidate encodings, in the source's priority order. -/
def encodingsList : List String :=
  ["utf-8", "utf-8-sig", "cp949", "euc-kr", "iso-8859-1"]

/-- Header test `has_korean`: some column contains a known channel-name
fragment. -/
def hasKorean (cols : List String) : Bool :=
  cols.any fun c =>
    hasInfixS "뉴스" c || hasInfixS "JTBC" c || hasInfixS "MBN" c ||
      hasInfixS "TV조선" c

/-- Header test `has_garbled`: some column contains a garbled marker
substring. -/
def hasGarbled (cols : List String) : Bool :=
  cols.any fun c => hasInfixS "ë" c || hasInfixS "ì" c || hasInfixS "ì¡" c

/-- Acceptance test of the loop: `has_korean or not has_garbled`. -/
def headerAccepted (cols : List String) : Bool :=
  hasKorean cols || !hasGarbled cols

/-- The candidate loop of `load_data`.  `acc` is the current value of the
`df` variable (the most recent successful decode, test passed or not);
the result pairs the final `df` with `encoding_used`. -/
def selectEncoding :
    List (String × Option (List String)) → Option (List String) →
      Option (List String) × Option String
  | [], acc => (acc, none)
  | (e, r) :: rest, acc =>
    match r with
    | none => selectEncoding rest acc
    | some cols =>
      if headerAccepted cols then (some cols, some e)
      else selectEncoding rest (some cols)

/-- Entry point of the loop: `df = None`, `encoding_used = None`. -/
def selectEncodingRun (results : List (String × Option (List String))) :
    Option (List String) × Option String :=
  selectEncoding results none

/-- The last successful decode among the candidates, starting from a
given current `df`. -/
def lastDecodedFrom (acc : Option (List String)) :
    List (String × Option (List String)) → Option (List String)
  | [] => acc
  | (_, r) :: rest =>
    match r with
    | none => lastDecodedFrom acc rest
    | some cols => lastDecodedFrom (some cols) rest

/-- When no candidate passes the header test the loop falls off the end:
`df` is the last successful decode and `encoding_used` stays `None`. -/
theorem selectEncoding_exhausted :
    ∀ (rs : List (String × Option (List String))) (acc : Option (List String)),
      (∀ p ∈ rs, ∀ cols, p.2 = some cols → headerAccepted cols = false) →
      selectEncoding rs acc = (lastDecodedFrom acc rs, none)
  | [], acc, _ => rfl
  | (e, r) :: rest, acc, h => by
    match hr : r with
    | none =>
      simp only [selectEncoding, lastDecodedFrom]
      exact selectEncoding_exhausted rest acc fun p hp => h p (List.mem_cons_of_mem _ hp)
    | some cols =>
      have hc := h (e, some cols) (List.mem_cons_self _ _) cols rfl
      simp only [selectEncoding, lastDecodedFrom, hc, Bool.false_eq_true, if_false]
      exact selectEncoding_exhausted rest (some cols) fun p hp => h p (List.mem_cons_of_mem _ hp)

/-- The first successfully-decoded candidate that passes the header test
is accepted and reported. -/
theorem selectEncoding_first_accept :
    ∀ (rs1 : List (String × Option (List String))) (e : String)
      (hdr : List String) (rs2 : List (String × Option (List String)))
      (acc : Option (List String)),
      (∀ p ∈ rs1, ∀ cols, p.2 = some cols → headerAccepted cols = false) →
      headerAccepted hdr = true →
      selectEncoding (rs1 ++ (e, some hdr) :: rs2) acc = (some hdr, some e)
  | [], e, hdr, rs2, acc, _, h2 => by
    simp only [List.nil_append, selectEncoding, h2, if_true]
  | (e', r') :: rs1, e, hdr, rs2, acc, h1, h2 => by
    match hr : r' with
    | none =>
      simp only [List.cons_append, selectEncoding]
      exact selectEncoding_first_accept rs1 e hdr rs2 acc
        (fun p hp => h1 p (List.mem_cons_of_mem _ hp)) h2
    | some cols =>
      have hc := h1 (e', some cols) (List.mem_cons_self _ _) cols rfl
      simp only [List.cons_append, selectEncoding, hc, Bool.false_eq_true, if_false]
      exact selectEncoding_first_accept rs1 e hdr rs2 (some cols)
        (fun p hp => h1 p (List.mem_cons_of_mem _ hp)) h2

/-- C4, counterexample: when every candidate decodes but none passes the
header test (here every header is the garbled column `["ì"]`), the loop
ends with `encoding_used = None` — the claim's required value
`"fallback"` is not reported.  In the source, `encoding_used` is set to
`"fallback"` only inside the enclosing `except` handler, which the
per-candidate failures never reach. -/
theorem c4_counterexample :
    (selectEncodingRun (encodingsList.map fun e => (e, some ["ì"]))).2 = none ∧
    (selectEncodingRun (encodingsList.map fun e => (e, some ["ì"]))).2 ≠
      some "fallback" := by
  constructor
  · decide
  · decide

/-- C4, amended: encoding recovery tries the candidates in their fixed
priority order and accepts the first successfully-decoded candidate
whose header passes the test (at least one known channel-name fragment,
or none of the garbled markers), reporting that encoding; when no
candidate satisfies either test the loop ends with the last
successfully-decoded table retained and the reported encoding `None` —
the `"fallback"` marker is produced only by the outer exception handler
(a re-fetch parsed as UTF-8), not by test exhaustion. -/
theorem c4_encoding_selection :
    (∀ (rs1 : List (String × Option (List String))) (e : String)
        (hdr : List String) (rs2 : List (String × Option (List String))),
      (∀ p ∈ rs1, ∀ cols, p.2 = some cols → headerAccepted cols = false) →
      headerAccepted hdr = true →
      selectEncodingRun (rs1 ++ (e, some hdr) :: rs2) = (some hdr, some e)) ∧
    (∀ rs : List (String × Option (List String)),
      (∀ p ∈ rs, ∀ cols, p.2 = some cols → headerAccepted cols = false) →
      selectEncodingRun rs = (lastDecodedFrom none rs, none)) :=
  ⟨fun rs1 e hdr rs2 h1 h2 => selectEncoding_first_accept rs1 e hdr rs2 none h1 h2,
   fun rs h => selectEncoding_exhausted rs none h⟩

/-- C4, witness: the amended theorem evaluated on concrete candidate
lists — `cp949` is the first accepted candidate in the first list, and
the second list exhausts the loop. -/
theorem c4_encoding_selection_witness :
    selectEncodingRun
        [("utf-8", none), ("utf-8-sig", some ["ì"]), ("cp949", some ["뉴스A"]),
         ("euc-kr", none), ("iso-8859-1", some ["JTBCë´ì¤ë£¸"])] =
      (some ["뉴스A"], some "cp949") ∧
    selectEncodingRun [("utf-8", some ["ì"]), ("utf-8-sig", none)] =
      (lastDecodedFrom none [("utf-8", some ["ì"]), ("utf-8-sig", none)], none) :=
  ⟨c4_encoding_selection.1 [("utf-8", none), ("utf-8-sig", some ["ì"])] "cp949"
      ["뉴스A"] [("euc-kr", none), ("iso-8859-1", some ["JTBCë´ì¤ë£¸"])]
      (by decide) (by decide),
   c4_encoding_selection.2 [("utf-8", some ["ì"]), ("utf-8-sig", none)] (by decide)⟩

/-! ## The Observation Table and the ingestion pipeline (`load_data`)

A `Frame` models the DataFrame after ingestion: the (repaired) source
CSV columns plus the three derived columns `original_date`, `date` and
`weekday`, kept as separate fields.  The pipeline assumes a rectangular
CSV whose column names do not collide with the derived column names
(on any other input the source itself falls into its generic error
branch and returns no table). -/

/-- The post-ingestion table. -/
structure Frame where
  cols : List (String × List Cell)
  origDate : List String
  dates : List (Option CalDate)
  weekday : List (Option Nat)
  dateColName : String
deriving DecidableEq, Repr

/-- Ascending order on `date` keys with `NaT` sorted last
(`sort_values("date")`, default `na_position="last"`). -/
def optDateLeB : Option CalDate → Option CalDate → Bool
  | some a, some b => a.leB b
  | some _, none => true
  | none, some _ => false
  | none, none => true

/-- Reindex a column by a list of row positions. -/
def reindex (p : List Nat) (l : List α) : List α := p.filterMap l.get?

/-- Structural column names excluded from numeric classification
(`exclude_columns` in `load_data`). -/
def excludeColumns : List String :=
  ["date", "original_date", "날짜", "Date", "DATE", "weekday"]

/-- Coercion of a single cell by `pd.to_numeric(·, errors="coerce")`. -/
def coerceCellStr (v : String) : Cell :=
  match toNumeric v with
  | some q => Cell.num q
  | none => Cell.na

/-- Numeric classification loop of `load_data`: every non-excluded
column is overwritten by `pd.to_numeric(·, errors="coerce")` and joins
`numeric_columns` iff the coerced column is not entirely missing
(`not df[col].isna().all()`). -/
def coerceNumericColumns :
    List (String × List String) → List (String × List Cell) × List String
  | [] => ([], [])
  | (nm, vs) :: rest =>
    if nm ∈ excludeColumns then
      ((nm, vs.map Cell.str) :: (coerceNumericColumns rest).1,
        (coerceNumericColumns rest).2)
    else
      ((nm, vs.map coerceCellStr) :: (coerceNumericColumns rest).1,
        if (vs.map coerceCellStr).all (· == Cell.na) then
          (coerceNumericColumns rest).2
        else nm :: (coerceNumericColumns rest).2)

/-- Minimum over a date column, skipping missing values
(`df["date"].min()`). -/
def dateMinO (l : List (Option CalDate)) : Option CalDate :=
  l.foldl
    (fun acc d =>
      match acc, d with
      | none, d => d
      | some a, none => some a
      | some a, some b => some (if b.leB a then b else a))
    none

/-- Maximum over a date column, skipping missing values
(`df["date"].max()`). -/
def dateMaxO (l : List (Option CalDate)) : Option CalDate :=
  l.foldl
    (fun acc d =>
      match acc, d with
      | none, d => d
      | some a, none => some a
      | some a, some b => some (if a.leB b then b else a))
    none

/-- Values of the first CSV column (the date source). -/
def csvFirstColVals (csv : List (String × List String)) : List String :=
  ((csv.head?).map (·.2)).getD []

/-- Primary per-row date parses of the first column
(`pd.to_datetime(df[date_col].astype(str), format="%y%m%d",
errors="coerce")`). -/
def primaryDates (csv : List (String × List String)) : List (Option CalDate) :=
  (csvFirstColVals csv).map parseCompact

/-- Degraded-mode condition: every row of the date source fails the
primary parse (`df["date"].isna().all()`). -/
def allDatesFailed (csv : List (String × List String)) : Bool :=
  (primaryDates csv).all (·.isNone)

/-- Load diagnostics (`loading_info` in `load_data`). -/
structure LoadingInfo where
  encoding : Option String
  rows : Nat
  columns : Nat
  columnNames : List String
  dateColumn : String
  numericColumns : List String
  dateRangeMin : Option CalDate
  dateRangeMax : Option CalDate
deriving DecidableEq, Repr

/-- The ingestion pipeline of `load_data` after decoding: column-name
repair, date derivation (primary compact parse per row; a synthetic
daily range only when every row failed), weekday derivation, ascending
sort by date (`NaT` last; ties and `reset_index` do not affect the
column multisets), numeric coercion and classification, and the
diagnostics dictionary.  The permissive whole-column fallback parse of
the source's `except` branch is unreachable because `errors="coerce"`
never raises, and is therefore not part of the value-level model. -/
def pipelineRowCount (csv : List (String × List String)) : Nat :=
  (csvFirstColVals csv).length

/-- Date column after the per-row primary parse and the unanimous-failure
synthetic fallback (`pd.date_range("2023-01-01", periods=len(df))`),
before sorting. -/
def pipelineDates1 (csv : List (String × List String)) : List (Option CalDate) :=
  if allDatesFailed csv = true then
    (dateRangeFrom ⟨2023, 1, 1⟩ (pipelineRowCount csv)).map some
  else primaryDates csv

/-- Row order produced by `sort_values("date")`, as a permutation of row
positions (a stable sort on the date key, `NaT` last; pandas leaves the
order of tied keys unspecified, which the model fixes as stable). -/
def pipelinePerm (csv : List (String × List String)) : List Nat :=
  List.insertionSort
    (fun i j =>
      optDateLeB ((pipelineDates1 csv).getD i none)
        ((pipelineDates1 csv).getD j none) = true)
    (List.range (pipelineRowCount csv))

def processCsv (encodingUsed : Option String)
    (csv : List (String × List String)) : Frame × List String × LoadingInfo :=
  let renamed := csv.map fun c => (fixName c.1, c.2)
  let dateColName := ((renamed.head?).map (·.1)).getD ""
  let origDate := csvFirstColVals csv
  let n := pipelineRowCount csv
  let dates1 := pipelineDates1 csv
  let wk := dates1.map (Option.map weekdayOf)
  let perm := pipelinePerm csv
  let datesS := reindex perm dates1
  let coerced := coerceNumericColumns (renamed.map fun c => (c.1, reindex perm c.2))
  let frame : Frame :=
    { cols := coerced.1
      origDate := reindex perm origDate
      dates := datesS
      weekday := reindex perm wk
      dateColName := dateColName }
  let info : LoadingInfo :=
    { encoding := encodingUsed
      rows := n
      columns := renamed.length + 3
      columnNames := renamed.map (·.1) ++ ["original_date", "date", "weekday"]
      dateColumn := dateColName
      numericColumns := coerced.2
      dateRangeMin := dateMinO datesS
      dateRangeMax := dateMaxO datesS }
  (frame, coerced.2, info)

/-! ## Order lemmas for dates and reindexing -/

theorem CalDate.leB_refl (a : CalDate) : a.leB a = true := by
  simp [CalDate.leB]

theorem CalDate.leB_trans {a b c : CalDate} (h1 : a.leB b = true)
    (h2 : b.leB c = true) : a.leB c = true := by
  simp only [CalDate.leB, Bool.or_eq_true, Bool.and_eq_true, decide_eq_true_eq,
    beq_iff_eq] at h1 h2 ⊢
  omega

theorem CalDate.leB_nextDay (a : CalDate) : a.leB a.nextDay = true := by
  rw [CalDate.nextDay]
  split_ifs <;>
    simp only [CalDate.leB, Bool.or_eq_true, Bool.and_eq_true,
      decide_eq_true_eq, beq_iff_eq]
  · exact Or.inr ⟨trivial, Or.inr ⟨trivial, Nat.le_succ _⟩⟩
  · exact Or.inr ⟨trivial, Or.inl (Nat.lt_succ_self _)⟩
  · exact Or.inl (lt_add_one _)

theorem addDays_add (s : CalDate) (i k : Nat) :
    addDays s (i + k) = addDays (addDays s i) k := by
  induction k with
  | zero => rfl
  | succ k ih => rw [← Nat.add_assoc]; simp [addDays, ih]

theorem leB_addDays (s : CalDate) (k : Nat) : s.leB (addDays s k) = true := by
  induction k with
  | zero => exact CalDate.leB_refl s
  | succ k ih => exact CalDate.leB_trans ih (CalDate.leB_nextDay _)

theorem addDays_leB_addDays (s : CalDate) {i j : Nat} (h : i ≤ j) :
    (addDays s i).leB (addDays s j) = true := by
  obtain ⟨k, rfl⟩ := Nat.exists_eq_add_of_le h
  rw [addDays_add]
  exact leB_addDays _ k

theorem reindex_range (l : List α) : reindex (List.range l.length) l = l := by
  induction l with
  | nil => rfl
  | cons a t ih =>
    simp only [reindex, List.length_cons, List.range_succ_eq_map,
      List.filterMap_cons]
    have h0 : (a :: t).get? 0 = some a := rfl
    rw [h0, List.filterMap_map]
    have : ((a :: t).get? ∘ Nat.succ) = t.get? := by
      funext i; rfl
    rw [this]
    exact congrArg (a :: ·) ih

theorem reindex_perm (l : List α) {p : List Nat}
    (hp : p.Perm (List.range l.length)) : (reindex p l).Perm l := by
  have h := hp.filterMap l.get?
  rwa [show List.filterMap l.get? (List.range l.length) = reindex (List.range l.length) l from rfl,
    reindex_range] at h

theorem getD_map_range {α : Type _} {f : Nat → α} {n i : Nat} (hi : i < n)
    (d : α) : ((List.range n).map f).getD i d = f i := by
  simp [List.getD, List.getElem?_map, List.getElem?_range, hi]

/-! ## Claims C1 and C5: the derived date column -/

/-- Variant of `reindex_range` stated through a length equation. -/
theorem reindex_range_of_len {l : List α} {n : Nat} (h : l.length = n) :
    reindex (List.range n) l = l := by
  subst h; exact reindex_range l

/-- C1, counterexample: a table whose first column is `["230101",
"abcdef"]` ingests successfully with a *missing* date in the second row
— the row that fails the primary compact parse is coerced to `NaT`, not
recovered by a permissive parse (with `errors="coerce"` the primary
call never raises, so the source's generic-parse `except` branch is
dead), and the synthetic fallback does not apply because not every row
failed.  The claim's headline assertion that the derived date column
has no missing values is therefore false. -/
theorem c1_counterexample :
    (processCsv (some "utf-8")
        [("날짜", ["230101", "abcdef"]), ("뉴스A", ["1", "2"])]).1.dates =
      [some ⟨2023, 1, 1⟩, none] ∧
    allDatesFailed [("날짜", ["230101", "abcdef"]), ("뉴스A", ["1", "2"])] =
      false := by
  with_unfolding_all decide

/-- C1, amended: unless every row fails the primary compact parse, the
derived date column is exactly the per-row primary parse results (as a
multiset — sorting permutes the rows): rows that fail the primary parse
stay missing (`NaT`), no per-row generic recovery happens, and the
synthetic range is substituted only in the unanimous-failure case. -/
theorem c1_date_column (enc : Option String) (csv : List (String × List String))
    (h : allDatesFailed csv = false) :
    ((processCsv enc csv).1.dates).Perm (primaryDates csv) := by
  have hd1 : pipelineDates1 csv = primaryDates csv := by
    simp [pipelineDates1, h]
  have hlen : (primaryDates csv).length = pipelineRowCount csv := by
    simp [primaryDates, pipelineRowCount]
  have hp : (pipelinePerm csv).Perm (List.range (primaryDates csv).length) := by
    rw [hlen]
    exact List.perm_insertionSort _ _
  have hdef : (processCsv enc csv).1.dates =
      reindex (pipelinePerm csv) (pipelineDates1 csv) := rfl
  rw [hdef, hd1]
  exact reindex_perm _ hp

/-- C1, witness: the amended theorem on a concrete mixed table. -/
theorem c1_date_column_witness :
    allDatesFailed [("날짜", ["230101", "abcdef"])] = false ∧
    ((processCsv none [("날짜", ["230101", "abcdef"])]).1.dates).Perm
      (primaryDates [("날짜", ["230101", "abcdef"])]) :=
  ⟨by decide, c1_date_column none _ (by decide)⟩

/-- C5, counterexample: an all-unparseable ingestion and a normal one
that produce *identical* load diagnostics — the degraded-mode condition
is not recorded anywhere in `loading_info` (its keys are encoding,
rows, columns, column_names, date_column, numeric_columns, date_range),
so no flag distinguishes the synthetic-date table from a genuine one. -/
theorem c5_counterexample :
    allDatesFailed [("날짜", ["aaaaaa", "bbbbbb"]), ("뉴스A", ["1", "2"])] = true ∧
    allDatesFailed [("날짜", ["230101", "230102"]), ("뉴스A", ["1", "2"])] = false ∧
    (processCsv (some "utf-8")
        [("날짜", ["aaaaaa", "bbbbbb"]), ("뉴스A", ["1", "2"])]).2.2 =
      (processCsv (some "utf-8")
        [("날짜", ["230101", "230102"]), ("뉴스A", ["1", "2"])]).2.2 := by
  decide

/-- C5, amended: when every row's date fails the primary parse,
ingestion substitutes the synthetic ascending daily sequence starting
2023-01-01 of exactly the table's row count (and reports that row count
in the diagnostics); the degraded-mode condition itself is *not*
recorded as any flag in the diagnostics. -/
theorem c5_synthetic_dates (enc : Option String)
    (csv : List (String × List String)) (h : allDatesFailed csv = true) :
    (processCsv enc csv).1.dates =
      (dateRangeFrom ⟨2023, 1, 1⟩ (pipelineRowCount csv)).map some ∧
    (processCsv enc csv).2.2.rows = pipelineRowCount csv := by
  have hd1 : pipelineDates1 csv =
      (dateRangeFrom ⟨2023, 1, 1⟩ (pipelineRowCount csv)).map some := by
    simp [pipelineDates1, h]
  refine ⟨?_, rfl⟩
  have hkey : ∀ i < pipelineRowCount csv,
      (pipelineDates1 csv).getD i none = some (addDays ⟨2023, 1, 1⟩ i) := by
    intro i hi
    rw [hd1, dateRangeFrom, List.map_map, getD_map_range hi]
    rfl
  have hsorted : List.Sorted
      (fun i j => optDateLeB ((pipelineDates1 csv).getD i none)
        ((pipelineDates1 csv).getD j none) = true)
      (List.range (pipelineRowCount csv)) := by
    refine (List.pairwise_lt_range _).imp_of_mem ?_
    intro i j hi hj hij
    rw [hkey i (List.mem_range.mp hi), hkey j (List.mem_range.mp hj)]
    show (addDays ⟨2023, 1, 1⟩ i).leB (addDays ⟨2023, 1, 1⟩ j) = true
    exact addDays_leB_addDays _ (Nat.le_of_lt hij)
  have hperm : pipelinePerm csv = List.range (pipelineRowCount csv) :=
    hsorted.insertionSort_eq
  have hlen : (pipelineDates1 csv).length = pipelineRowCount csv := by
    rw [hd1]; simp [dateRangeFrom]
  show reindex (pipelinePerm csv) (pipelineDates1 csv) = _
  rw [hperm, reindex_range_of_len hlen, hd1]

/-- C5, witness: the amended theorem on a concrete all-unparseable
table. -/
theorem c5_synthetic_dates_witness :
    allDatesFailed [("날짜", ["aaaaaa", "bbbbbb"])] = true ∧
    ((processCsv none [("날짜", ["aaaaaa", "bbbbbb"])]).1.dates =
        (dateRangeFrom ⟨2023, 1, 1⟩
          (pipelineRowCount [("날짜", ["aaaaaa", "bbbbbb"])])).map some ∧
      (processCsv none [("날짜", ["aaaaaa", "bbbbbb"])]).2.2.rows =
        pipelineRowCount [("날짜", ["aaaaaa", "bbbbbb"])]) :=
  ⟨by decide, c5_synthetic_dates none _ (by decide)⟩

/-! ## Claim C8: numeric classification -/

/-- A coerced cell is missing iff the numeric coercion failed. -/
theorem coerceCellStr_eq_na_iff (v : String) :
    (coerceCellStr v == Cell.na) = true ↔ (toNumeric v).isSome = false := by
  unfold coerceCellStr
  cases h : toNumeric v <;> simp

/-- Names in the numeric set come from the processed columns. -/
theorem mem_coerceNumericColumns_names (cols : List (String × List String))
    (x : String) (h : x ∈ (coerceNumericColumns cols).2) :
    x ∈ cols.map (·.1) := by
  induction cols with
  | nil => simp [coerceNumericColumns] at h
  | cons c rest ih =>
    obtain ⟨nm, vs⟩ := c
    rw [coerceNumericColumns] at h
    by_cases he : nm ∈ excludeColumns
    · rw [if_pos he] at h
      exact List.mem_cons_of_mem _ (ih h)
    · rw [if_neg he] at h
      by_cases ha : (vs.map coerceCellStr).all (· == Cell.na)
      · rw [if_pos ha] at h
        exact List.mem_cons_of_mem _ (ih h)
      · rw [if_neg ha] at h
        rcases List.mem_cons.mp h with rfl | h'
        · exact List.mem_cons_self _ _
        · exact List.mem_cons_of_mem _ (ih h')

/-- C8, counterexample: a column whose every row fails numeric coercion
is excluded from the numeric set, but its stored values are *not* left
unchanged — the unconditional `df[col] = pd.to_numeric(df[col],
errors="coerce")` has already overwritten them all with missing
values. -/
theorem c8_counterexample :
    (coerceNumericColumns [("비고", ["abc", ""])]).1 =
      [("비고", [Cell.na, Cell.na])] ∧
    (coerceNumericColumns [("비고", ["abc", ""])]).2 = [] ∧
    [("비고", [Cell.na, Cell.na])] ≠ [("비고", [Cell.str "abc", Cell.str ""])] := by
  decide

/-- C8, amended: during ingestion a non-structural column joins the
numeric column set iff numeric coercion succeeds on at least one of its
rows; however the stored values of every non-structural column — also
one that fails on every row — are overwritten by the coercion result
(`NaN` where parsing failed), not retained as-is. -/
theorem c8_numeric_classification (cols : List (String × List String))
    (nm : String) (vs : List String) (hnd : (cols.map (·.1)).Nodup)
    (hmem : (nm, vs) ∈ cols) (hexc : nm ∉ excludeColumns) :
    (nm, vs.map coerceCellStr) ∈ (coerceNumericColumns cols).1 ∧
    (nm ∈ (coerceNumericColumns cols).2 ↔ ∃ v ∈ vs, (toNumeric v).isSome) := by
  induction cols with
  | nil => cases hmem
  | cons c rest ih =>
    obtain ⟨nm', vs'⟩ := c
    simp only [List.map_cons, List.nodup_cons] at hnd
    rw [coerceNumericColumns]
    rcases List.mem_cons.mp hmem with heq | hmem'
    · injection heq with h1 h2
      subst h1; subst h2
      rw [if_neg hexc]
      refine ⟨List.mem_cons_self _ _, ?_⟩
      have hout : nm ∉ (coerceNumericColumns rest).2 := fun hmem2 =>
        hnd.1 (mem_coerceNumericColumns_names rest nm hmem2)
      by_cases ha : (vs.map coerceCellStr).all (· == Cell.na)
      · rw [if_pos ha]
        simp only [List.all_eq_true, List.mem_map] at ha
        constructor
        · intro hmem2
          exact absurd hmem2 hout
        · rintro ⟨v, hv, hsome⟩
          have := (coerceCellStr_eq_na_iff v).mp (ha _ ⟨v, hv, rfl⟩)
          rw [hsome] at this
          cases this
      · rw [if_neg ha]
        simp only [List.all_eq_true, List.mem_map, not_forall] at ha
        constructor
        · intro _
          obtain ⟨cell, ⟨v, hv, rfl⟩, hne⟩ := ha
          refine ⟨v, hv, ?_⟩
          rcases hx : (toNumeric v).isSome with _ | _
          · exact absurd ((coerceCellStr_eq_na_iff v).mpr hx) hne
          · rfl
        · intro _
          exact List.mem_cons_self _ _
    · have hne : nm ≠ nm' := by
        rintro rfl
        exact hnd.1 (List.mem_map.mpr ⟨(nm, vs), hmem', rfl⟩)
      have ihr := ih hnd.2 hmem'
      by_cases he : nm' ∈ excludeColumns
      · rw [if_pos he]
        exact ⟨List.mem_cons_of_mem _ ihr.1, ihr.2⟩
      · rw [if_neg he]
        refine ⟨List.mem_cons_of_mem _ ihr.1, ?_⟩
        by_cases ha : (vs'.map coerceCellStr).all (· == Cell.na)
        · rw [if_pos ha]
          exact ihr.2
        · rw [if_neg ha]
          rw [List.mem_cons]
          constructor
          · rintro (rfl | h')
            · exact absurd rfl hne
            · exact ihr.2.mp h'
          · intro h'
            exact Or.inr (ihr.2.mpr h')

/-- C8, witness: the amended theorem on a concrete three-column table
(the structural `날짜` column, a channel with one parsing row, and a
fully non-numeric column). -/
theorem c8_numeric_classification_witness :
    ("뉴스A", ["1", "x"].map coerceCellStr) ∈
      (coerceNumericColumns
        [("날짜", ["230101", "230102"]), ("뉴스A", ["1", "x"]),
          ("비고", ["a", "b"])]).1 ∧
    ("뉴스A" ∈
        (coerceNumericColumns
          [("날짜", ["230101", "230102"]), ("뉴스A", ["1", "x"]),
            ("비고", ["a", "b"])]).2 ↔
      ∃ v ∈ ["1", "x"], (toNumeric v).isSome) :=
  c8_numeric_classification _ "뉴스A" ["1", "x"] (by decide) (by decide)
    (by decide)

/-! ## Transform infrastructure -/

/-- Numeric view of a cell (post-ingestion channel columns hold only
`num`/`na` cells). -/
def Cell.toQ : Cell → Option ℚ
  | .num v => some v
  | _ => none

/-- Cell view of an optional numeric value. -/
def optToCell : Option ℚ → Cell
  | some v => Cell.num v
  | none => Cell.na

/-- Column lookup (`df[name]`), `none` when the column is absent. -/
def getCol (df : Frame) (name : String) : Option (List Cell) :=
  (df.cols.find? (·.1 == name)).map (·.2)

/-- Numeric values of a column (`[]` when the column is absent). -/
def getColQ (df : Frame) (name : String) : List (Option ℚ) :=
  ((getCol df name).getD []).map Cell.toQ

/-- Column membership (`name in df.columns`, restricted to the data
columns of the frame). -/
def frameHasCol (df : Frame) (name : String) : Bool :=
  df.cols.any (·.1 == name)

/-- Column assignment (`df[name] = series`): overwrite an existing
column, else append a new one. -/
def setCol (cols : List (String × List Cell)) (name : String)
    (vals : List Cell) : List (String × List Cell) :=
  if cols.any (·.1 == name) then
    cols.map fun p => if p.1 == name then (name, vals) else p
  else cols ++ [(name, vals)]

/-- Row positions of a frame satisfying a predicate (boolean-mask
indexing). -/
def rowIdxWhere (df : Frame) (p : Nat → Bool) : List Nat :=
  (List.range df.dates.length).filter p

/-- Row slice of a frame along a list of positions. -/
def filterRows (df : Frame) (keep : List Nat) : Frame :=
  { cols := df.cols.map fun p => (p.1, reindex keep p.2)
    origDate := reindex keep df.origDate
    dates := reindex keep df.dates
    weekday := reindex keep df.weekday
    dateColName := df.dateColName }

/-- The weekday filter `filter_by_day_type`: 주중 keeps Monday–Friday,
주말 keeps Saturday–Sunday, anything else returns the frame itself
(the same object, not a copy). -/
def filterByDayType (df : Frame) (dayType : String) : Frame :=
  if dayType = "주중" then
    filterRows df (rowIdxWhere df fun i =>
      match df.weekday.getD i none with
      | some w => ([0, 1, 2, 3, 4] : List Nat).contains w
      | none => false)
  else if dayType = "주말" then
    filterRows df (rowIdxWhere df fun i =>
      match df.weekday.getD i none with
      | some w => ([5, 6] : List Nat).contains w
      | none => false)
  else df

/-! ## Rolling average (`create_moving_average_chart`) -/

/-- Model of `Series.rolling(window=w, min_periods=1).mean()`: at index
`i` the mean of the non-missing values among the last `min (w, i+1)`
entries, `NaN` when that window holds no observation. -/
def rollingMeanOpt (w : Nat) (xs : List (Option ℚ)) : List (Option ℚ) :=
  (List.range xs.length).map fun i =>
    meanOpt ((xs.take (i + 1)).drop (i + 1 - w))

/-- Name of a derived moving-average column
(`f"{channel}_MA{period}"`). -/
def maColName (channel : String) (period : Nat) : String :=
  channel ++ "_MA" ++ toString period

/-- Frame effect of `create_moving_average_chart`: for every selected
channel present in the frame and every requested period, *if the frame
has at least `period` rows*, the rolling-mean series is assigned into
the frame that was passed in (`df[f"{channel}_MA{period}"] = ...` — an
in-place column addition, no copy is taken); otherwise nothing is
produced for that (channel, period) pair.  The figure built afterwards
only reads these columns. -/
def movingAverageFrame (df : Frame) (channels : List String)
    (periods : List Nat) : Frame :=
  channels.foldl
    (fun acc channel =>
      if frameHasCol acc channel then
        periods.foldl
          (fun acc2 period =>
            if period ≤ acc2.dates.length then
              { acc2 with
                cols := setCol acc2.cols (maColName channel period)
                  ((rollingMeanOpt period (getColQ acc2 channel)).map optToCell) }
            else acc2)
          acc
      else acc)
    df

/-! ## Claim C2: rolling averages -/

/-- Looking up a column right after assigning it yields the assigned
values. -/
theorem find?_setCol (cols : List (String × List Cell)) (name : String)
    (vals : List Cell) :
    ((setCol cols name vals).find? (·.1 == name)).map (·.2) = some vals := by
  unfold setCol
  by_cases h : cols.any (·.1 == name)
  · rw [if_pos h]
    induction cols with
    | nil => simp at h
    | cons p rest ih =>
      by_cases hp : p.1 == name
      · simp [List.find?, hp]
      · have hr : rest.any (·.1 == name) = true := by
          rcases (List.any_eq_true.mp h) with ⟨q, hq, hqn⟩
          rcases List.mem_cons.mp hq with rfl | hq'
          · exact absurd hqn (by simp [hp])
          · exact List.any_eq_true.mpr ⟨q, hq', hqn⟩
        have hp' : (p.1 == name) = false := by
          simpa using hp
        rw [List.map_cons, if_neg (by simp [hp'])]
        rw [List.find?_cons_of_neg _ (by simp [hp'])]
        exact ih hr
  · rw [if_neg h]
    have hnone : cols.find? (·.1 == name) = none := by
      rw [List.find?_eq_none]
      intro p hp hpn
      exact h (List.any_eq_true.mpr ⟨p, hp, hpn⟩)
    rw [List.find?_append, hnone]
    simp [List.find?]

/-- The rolling mean of an all-present series is everywhere present. -/
theorem meanOpt_map_some (l : List ℚ) (hne : l ≠ []) :
    meanOpt (l.map some) = some (mean l) := by
  unfold meanOpt
  have : (l.map some).filterMap id = l := by
    rw [List.filterMap_map]
    simp
  rw [this, if_neg (by simpa using hne)]

/-- C2, counterexample: on a one-row table a requested window of 2 is
skipped entirely — the guard `len(df) >= period` means no series of any
length is produced for that (channel, window) pair, contradicting the
claim that every window length yields N non-null values for every
N ≥ 1. -/
theorem c2_counterexample :
    getCol
        (movingAverageFrame
          { cols := [("뉴스A", [Cell.num 1])], origDate := ["230101"],
            dates := [some ⟨2023, 1, 1⟩], weekday := [some 6],
            dateColName := "날짜" }
          ["뉴스A"] [2])
        (maColName "뉴스A" 2) = none ∧
    movingAverageFrame
        { cols := [("뉴스A", [Cell.num 1])], origDate := ["230101"],
          dates := [some ⟨2023, 1, 1⟩], weekday := [some 6],
          dateColName := "날짜" }
        ["뉴스A"] [2] =
      { cols := [("뉴스A", [Cell.num 1])], origDate := ["230101"],
        dates := [some ⟨2023, 1, 1⟩], weekday := [some 6],
        dateColName := "날짜" } :=
  ⟨rfl, rfl⟩

/-- C2, amended: for a channel series of length N with no missing
values and a requested window length W with 1 ≤ W ≤ N, the transform
assigns a series of N non-null values into the frame; the value at
index i is the mean of the last `min (W, i+1)` observations (the W most
recent once i+1 ≥ W, all i+1 available ones before that).  For N < W
the guard `len(df) >= period` skips the pair and no series is
produced. -/
theorem c2_rolling_average (df : Frame) (ch : String) (w : Nat)
    (vals : List ℚ) (hch : frameHasCol df ch = true)
    (hvals : getColQ df ch = vals.map some)
    (hw1 : 1 ≤ w) (hwn : w ≤ df.dates.length)
    (_hlen : vals.length = df.dates.length) :
    getCol (movingAverageFrame df [ch] [w]) (maColName ch w) =
      some ((rollingMeanOpt w (vals.map some)).map optToCell) ∧
    (rollingMeanOpt w (vals.map some)).length = vals.length ∧
    ∀ i, i < vals.length →
      (rollingMeanOpt w (vals.map some)).getD i none =
        some (mean ((vals.take (i + 1)).drop (i + 1 - w))) := by
  refine ⟨?_, ?_, ?_⟩
  · have hstep : movingAverageFrame df [ch] [w] =
        { df with
          cols := setCol df.cols (maColName ch w)
            ((rollingMeanOpt w (getColQ df ch)).map optToCell) } := by
      simp [movingAverageFrame, hch, hwn]
    rw [hstep, hvals]
    exact find?_setCol df.cols (maColName ch w) _
  · simp [rollingMeanOpt]
  · intro i hi
    have hi' : i < (vals.map some).length := by simpa using hi
    unfold rollingMeanOpt
    rw [getD_map_range hi']
    rw [← List.map_take, ← List.map_drop]
    rw [meanOpt_map_some]
    intro hemp
    have := congrArg List.length hemp
    simp only [List.length_drop, List.length_take, List.length_nil] at this
    omega

/-- C2, witness: the amended theorem on a concrete two-row frame with
window 2. -/
theorem c2_rolling_average_witness :
    getCol
        (movingAverageFrame
          { cols := [("뉴스A", [Cell.num 1, Cell.num 3])],
            origDate := ["230101", "230102"],
            dates := [some ⟨2023, 1, 1⟩, some ⟨2023, 1, 2⟩],
            weekday := [some 6, some 0], dateColName := "날짜" }
          ["뉴스A"] [2])
        (maColName "뉴스A" 2) =
      some ((rollingMeanOpt 2 (([1, 3] : List ℚ).map some)).map optToCell) ∧
    (rollingMeanOpt 2 (([1, 3] : List ℚ).map some)).length =
      ([1, 3] : List ℚ).length ∧
    ∀ i, i < ([1, 3] : List ℚ).length →
      (rollingMeanOpt 2 (([1, 3] : List ℚ).map some)).getD i none =
        some (mean ((([1, 3] : List ℚ).take (i + 1)).drop (i + 1 - 2))) :=
  c2_rolling_average
    { cols := [("뉴스A", [Cell.num 1, Cell.num 3])],
      origDate := ["230101", "230102"],
      dates := [some ⟨2023, 1, 1⟩, some ⟨2023, 1, 2⟩],
      weekday := [some 6, some 0], dateColName := "날짜" }
    "뉴스A" 2 [1, 3] (by decide) rfl (by decide) (by decide) (by decide)

/-! ## Claim C6: in-place mutation by the moving-average transform -/

/-- C6, counterexample: calling the moving-average transform on a
one-row frame with window 1 adds the derived column `뉴스A_MA1` to the
frame that was passed in — the frame after the call has two columns
where it had one, so the transform does not leave the table's columns
identical (and with the day filter `(주중+주말)`,
`filter_by_day_type` returns the cached table itself, so the cached
Observation Table is the frame being extended). -/
theorem c6_counterexample :
    ((movingAverageFrame
        (filterByDayType
          { cols := [("뉴스A", [Cell.num 1])], origDate := ["230101"],
            dates := [some ⟨2023, 1, 1⟩], weekday := [some 6],
            dateColName := "날짜" }
          "(주중+주말)")
        ["뉴스A"] [1]).cols.map (·.1)) = ["뉴스A", "뉴스A_MA1"] ∧
    (movingAverageFrame
        (filterByDayType
          { cols := [("뉴스A", [Cell.num 1])], origDate := ["230101"],
            dates := [some ⟨2023, 1, 1⟩], weekday := [some 6],
            dateColName := "날짜" }
          "(주중+주말)")
        ["뉴스A"] [1]).cols.length ≠
      (filterByDayType
        { cols := [("뉴스A", [Cell.num 1])], origDate := ["230101"],
          dates := [some ⟨2023, 1, 1⟩], weekday := [some 6],
          dateColName := "날짜" }
        "(주중+주말)").cols.length := by
  constructor
  · rfl
  · decide

/-! ## Period comparison (`create_period_comparison_chart`)

The chart functions are embedded by their data content: the window
boundary dates (the `strftime` label formatting is presentation) and
the per-channel (previous mean, current mean, signed difference)
triples that the bars and bar texts display.  Each takes an explicit
`now : CalDate` modelling the ambient wall clock, which the source
never consults. -/

/-- Months count extracted from `comparison_type` by the source's
substring chain (`"1개월" in comparison_type`, then `"3개월"`, ...,
else 12). -/
def monthsCount (comparisonType : String) : Nat :=
  if hasInfixS "1개월" comparisonType then 1
  else if hasInfixS "3개월" comparisonType then 3
  else if hasInfixS "6개월" comparisonType then 6
  else if hasInfixS "9개월" comparisonType then 9
  else 12

/-- Membership of a row's date in a closed window
(`(df["date"] >= start) & (df["date"] <= end)`); `NaT` on either side
compares false. -/
def inWindowB (d s e : Option CalDate) : Bool :=
  match d, s, e with
  | some d, some s, some e => s.leB d && d.leB e
  | _, _, _ => false

/-- Channel values of the rows falling in a window. -/
def windowVals (df : Frame) (channel : String) (s e : Option CalDate) :
    List (Option ℚ) :=
  reindex (rowIdxWhere df fun i => inWindowB (df.dates.getD i none) s e)
    (getColQ df channel)

/-- NaN-propagating subtraction (`curr_val - prev_val`). -/
def optSub : Option ℚ → Option ℚ → Option ℚ
  | some a, some b => some (a - b)
  | _, _ => none

/-- The current-period window of `create_period_comparison_chart`: the
explicit date pair when given, else the `monthsCount` window ending at
the table's maximum date. -/
def periodCompWindow (df : Frame) (comparisonType : String)
    (customDates : Option (CalDate × CalDate)) :
    Option CalDate × Option CalDate :=
  match customDates with
  | some (s, e) => (some s, some e)
  | none =>
    ((dateMaxO df.dates).map fun e => subMonths e (monthsCount comparisonType),
      dateMaxO df.dates)

/-- Output of `create_period_comparison_chart`: window boundaries and,
per selected channel present in the `CHANNELS` dictionary, the
previous-period mean, current-period mean and their difference. -/
structure PeriodCompOut where
  startD : Option CalDate
  endD : Option CalDate
  prevStartD : Option CalDate
  prevEndD : Option CalDate
  rows : List (String × Option ℚ × Option ℚ × Option ℚ)
deriving DecidableEq, Repr

/-- Data content of `create_period_comparison_chart`.  The function
reads `df` only (it assigns no columns), so it has no effect on the
frame; `now` is the ambient wall clock, never read. -/
def periodComparisonData (df : Frame) (channels : List String)
    (CHANNELSkeys : List String) (comparisonType : String)
    (customDates : Option (CalDate × CalDate)) (_now : CalDate) :
    PeriodCompOut :=
  let se := periodCompWindow df comparisonType customDates
  let ps := se.1.map (subYears · 1)
  let pe := se.2.map (subYears · 1)
  let rows := channels.filterMap fun ch =>
    if CHANNELSkeys.contains ch then
      let prev := meanOpt (windowVals df ch ps pe)
      let curr := meanOpt (windowVals df ch se.1 se.2)
      some (ch, prev, curr, optSub curr prev)
    else none
  ⟨se.1, se.2, ps, pe, rows⟩

/-! ## Weekday aggregation (`create_weekday_chart`) -/

/-- Window length of the weekday chart's `period_type` option (equality
chain in the source; `None` for `"전체"`). -/
def periodTypeMonths (periodType : String) : Option Nat :=
  if periodType = "최근 1개월" then some 1
  else if periodType = "최근 3개월" then some 3
  else if periodType = "최근 6개월" then some 6
  else if periodType = "최근 9개월" then some 9
  else if periodType = "최근 12개월" then some 12
  else none

/-- Weekday display order (English keys and Korean labels) for the
active day filter. -/
def weekdayOrderFor (dayFilter : String) : List String × List String :=
  if dayFilter = "주중" then
    (["Monday", "Tuesday", "Wednesday", "Thursday", "Friday"],
      ["월요일", "화요일", "수요일", "목요일", "금요일"])
  else if dayFilter = "주말" then
    (["Saturday", "Sunday"], ["토요일", "일요일"])
  else
    (["Monday", "Tuesday", "Wednesday", "Thursday", "Friday", "Saturday",
        "Sunday"],
      ["월요일", "화요일", "수요일", "목요일", "금요일", "토요일", "일요일"])

/-- The `weekday_name` column (`df["date"].dt.day_name()`; `NaT` maps to
missing). -/
def weekdayNamesCol (df : Frame) : List (Option String) :=
  df.dates.map (Option.map fun d => weekdayName (weekdayOf d))

/-- Per-day y-values of one channel's bars: the group mean where the
weekday occurs in the frame (`weekday_avg[day]`, `NaN`-skipping, `NaN`
when the group's channel values are all missing), and the literal `0`
where it does not (`else: y_values.append(0)`). -/
def weekdaySeriesFor (filtered : Frame) (ch : String) (order : List String) :
    List (Option ℚ) :=
  order.map fun day =>
    let idxs := (List.range filtered.dates.length).filter fun i =>
      (weekdayNamesCol filtered).getD i none == some day
    if idxs.isEmpty then some 0
    else meanOpt (reindex idxs (getColQ filtered ch))

/-- Output of `create_weekday_chart`: the named-window start (when any),
the weekday order and labels, and per channel the bar values. -/
structure WeekdayOut where
  windowStart : Option CalDate
  order : List String
  labels : List String
  series : List (String × List (Option ℚ))
deriving DecidableEq, Repr

/-- Data content of `create_weekday_chart`, paired with the final state
of the argument frame.  The source copies the filtered slice
(`df_weekday = filtered_df.copy()`) before deriving `weekday_name`, so
the argument frame is returned unchanged; `now` is the ambient wall
clock, never read. -/
def weekdayChartData (df : Frame) (channels : List String)
    (CHANNELSkeys : List String) (periodType dayFilter : String)
    (_now : CalDate) : WeekdayOut × Frame :=
  let latest := dateMaxO df.dates
  let startO : Option CalDate :=
    match periodTypeMonths periodType with
    | some k => latest.map (subMonths · k)
    | none => none
  let filtered :=
    match periodTypeMonths periodType with
    | some _ => filterRows df (rowIdxWhere df fun i =>
        match df.dates.getD i none, startO with
        | some d, some s => s.leB d
        | _, _ => false)
    | none => df
  let ord := weekdayOrderFor dayFilter
  let series := channels.filterMap fun ch =>
    if CHANNELSkeys.contains ch && frameHasCol filtered ch then
      some (ch, weekdaySeriesFor filtered ch ord.1)
    else none
  (⟨startO, ord.1, ord.2, series⟩, df)

/-! ## Correlation analysis (`create_correlation_analysis`)

Pearson's r involves a square root, which ℚ lacks; the embedding keeps
coefficients under the strictly monotone encoding `m(r) = sign(r)·r²`
(`corrEnc = cov·|cov| / (var·var)`), which preserves equality with 1,
symmetry, signs and the order of absolute values — everything the
claims about the matrix and the sorted pair list quantify over.  The
3-decimal display rounding of the source is presentation and not
modelled. -/

/-- Sample covariance numerator `Σ (xᵢ − x̄)(yᵢ − ȳ)` over two
equal-length lists. -/
def covXY (xs ys : List ℚ) : ℚ :=
  ((xs.zip ys).map fun p => (p.1 - mean xs) * (p.2 - mean ys)).sum

/-- Pairwise-complete observations of two columns (pandas `.corr()`
drops a row for a pair when either side is missing). -/
def pairComplete (xs ys : List (Option ℚ)) : List (ℚ × ℚ) :=
  (xs.zip ys).filterMap fun p =>
    match p.1, p.2 with
    | some a, some b => some (a, b)
    | _, _ => none

/-- Pearson correlation of two columns under the monotone encoding
`m(r) = sign(r)·r²`. -/
def corrEnc (xs ys : List (Option ℚ)) : ℚ :=
  let ps := pairComplete xs ys
  let a := ps.map (·.1)
  let b := ps.map (·.2)
  let c := covXY a b
  c * |c| / (covXY a a * covXY b b)

/-- Upper-triangle channel pairs in loop order (`for i ...; for j in
range(i+1, ...)`). -/
def upperPairs : List String → List (String × String)
  | [] => []
  | c :: rest => (rest.map fun c2 => (c, c2)) ++ upperPairs rest

/-- The flattened upper triangle with coefficients (`corr_pairs`). -/
def corrPairsOf (df : Frame) (channels : List String) :
    List (String × String × ℚ) :=
  (upperPairs channels).map fun p =>
    (p.1, p.2, corrEnc (getColQ df p.1) (getColQ df p.2))

/-- Sort key of `sort_values("상관계수", key=abs, ascending=False)`:
descending absolute coefficient. -/
def corrRel (a b : String × String × ℚ) : Prop := |b.2.2| ≤ |a.2.2|

instance : DecidableRel corrRel := fun _ _ =>
  inferInstanceAs (Decidable (_ ≤ _))

instance : IsTotal (String × String × ℚ) corrRel :=
  ⟨fun _ _ => le_total _ _⟩

instance : IsTrans (String × String × ℚ) corrRel :=
  ⟨fun _ _ _ h1 h2 => le_trans h2 h1⟩

/-- The window restriction of `create_correlation_analysis`: an explicit
date range, the trailing `n` observations (`df.tail(n)`), or the full
history. -/
def correlationRecent (df : Frame) (analysisPeriod : Option Nat)
    (customDates : Option (CalDate × CalDate)) : Frame :=
  match customDates with
  | some (s, e) =>
    filterRows df (rowIdxWhere df fun i =>
      inWindowB (df.dates.getD i none) (some s) (some e))
  | none =>
    match analysisPeriod with
    | some n =>
      filterRows df ((List.range df.dates.length).drop (df.dates.length - n))
    | none => df

/-- Data content of `create_correlation_analysis`: the sorted pair list
(the heat-map annotations read the same matrix entries `corrEnc`
computes), paired with the final state of the argument frame — the
function only reads `df`. -/
def createCorrelationData (df : Frame) (channels : List String)
    (analysisPeriod : Option Nat)
    (customDates : Option (CalDate × CalDate)) :
    List (String × String × ℚ) × Frame :=
  (List.insertionSort corrRel
      (corrPairsOf (correlationRecent df analysisPeriod customDates) channels),
    df)

/-- C6, amended: the weekday aggregation, the correlation analysis and
the weekday filter leave the frame they are given untouched (the
weekday chart derives `weekday_name` on a `.copy()`, the other two only
read), and the period comparison assigns no columns at all; the
moving-average transform, however, assigns its derived MA columns into
the very frame it receives — and with the day filter `(주중+주말)` that
frame is the cached table itself. -/
theorem c6_transform_effects :
    (∀ (df : Frame) (channels CHANNELSkeys : List String)
        (periodType dayFilter : String) (now : CalDate),
      (weekdayChartData df channels CHANNELSkeys periodType dayFilter
          now).2 = df) ∧
    (∀ (df : Frame) (channels : List String) (ap : Option Nat)
        (cd : Option (CalDate × CalDate)),
      (createCorrelationData df channels ap cd).2 = df) ∧
    (∀ (df : Frame) (dayType : String),
      (filterByDayType df dayType).cols.map (·.1) = df.cols.map (·.1) ∧
        (filterByDayType df dayType).dateColName = df.dateColName) := by
  refine ⟨fun _ _ _ _ _ _ => rfl, fun _ _ _ _ => rfl, ?_⟩
  intro df dayType
  unfold filterByDayType
  split_ifs <;> simp [filterRows]

/-- C10: the period comparison and the weekday aggregation are
deterministic functions of the table and parameters alone — their
output is unchanged under any change of the ambient wall clock — and
for named recent windows both anchor the window's end at the maximum
date present in the input table. -/
theorem c10_determinism :
    (∀ (df : Frame) (channels CHANNELSkeys : List String) (ct : String)
        (cd : Option (CalDate × CalDate)) (now₁ now₂ : CalDate),
      periodComparisonData df channels CHANNELSkeys ct cd now₁ =
        periodComparisonData df channels CHANNELSkeys ct cd now₂) ∧
    (∀ (df : Frame) (channels CHANNELSkeys : List String)
        (pt filt : String) (now₁ now₂ : CalDate),
      weekdayChartData df channels CHANNELSkeys pt filt now₁ =
        weekdayChartData df channels CHANNELSkeys pt filt now₂) ∧
    (∀ (df : Frame) (channels CHANNELSkeys : List String) (ct : String)
        (now : CalDate),
      (periodComparisonData df channels CHANNELSkeys ct none now).endD =
        dateMaxO df.dates) ∧
    (∀ (df : Frame) (channels CHANNELSkeys : List String) (filt : String)
        (now : CalDate),
      (weekdayChartData df channels CHANNELSkeys "최근 3개월" filt
          now).1.windowStart =
        (dateMaxO df.dates).map (subMonths · 3)) :=
  ⟨fun _ _ _ _ _ _ _ => rfl, fun _ _ _ _ _ _ _ => rfl,
    fun _ _ _ _ _ => rfl, fun _ _ _ _ _ => rfl⟩

/-! ## Claim C7: degenerate transform inputs -/

/-- Index access through a map, via an in-bounds proof on the source
list. -/
theorem getD_map_get {α β : Type _} {f : α → β} {l : List α} {k : Nat}
    (hk : k < l.length) (dβ : β) :
    (l.map f).getD k dβ = f (l.get ⟨k, hk⟩) := by
  simp [List.getD, List.getElem?_map, List.getElem?_eq_getElem, hk]

/-- C7, counterexample: in the weekday chart of a Monday-only table,
the Tuesday bar (a weekday with no rows) is the literal numeric value 0
(`else: y_values.append(0)`), and in a table that has a genuine Tuesday
rating of 0 the Tuesday bar is the same value `some 0` — the degenerate
case is reported as a number indistinguishable from a true zero mean,
not as an explicit "not computable" signal. -/
theorem c7_counterexample :
    ((weekdayChartData
        { cols := [("뉴스A", [Cell.num 1])], origDate := ["230102"],
          dates := [some ⟨2023, 1, 2⟩], weekday := [some 0],
          dateColName := "날짜" }
        ["뉴스A"] ["뉴스A"] "전체" "(주중+주말)"
        ⟨2023, 1, 1⟩).1.series.getD 0 ("", [])).2.getD 1 none = some 0 ∧
    ((weekdayChartData
        { cols := [("뉴스A", [Cell.num 1, Cell.num 0])],
          origDate := ["230102", "230103"],
          dates := [some ⟨2023, 1, 2⟩, some ⟨2023, 1, 3⟩],
          weekday := [some 0, some 1], dateColName := "날짜" }
        ["뉴스A"] ["뉴스A"] "전체" "(주중+주말)"
        ⟨2023, 1, 1⟩).1.series.getD 0 ("", [])).2.getD 1 none = some 0 := by
  constructor
  · with_unfolding_all decide
  · with_unfolding_all decide

/-- C7, amended: a comparison period containing zero rows yields an
absent (`NaN`) current mean and an absent difference — a signal
distinguishable from the numeric value zero — but a weekday with no
rows in the aggregation window yields the literal numeric value 0,
indistinguishable from a true zero mean. -/
theorem c7_degenerate_inputs :
    (∀ (df : Frame) (channels CHANNELSkeys : List String) (ct : String)
        (cd : Option (CalDate × CalDate)) (now : CalDate),
      rowIdxWhere df (fun i => inWindowB (df.dates.getD i none)
          (periodCompWindow df ct cd).1 (periodCompWindow df ct cd).2) = [] →
      ∀ r ∈ (periodComparisonData df channels CHANNELSkeys ct cd now).rows,
        r.2.2.1 = none ∧ r.2.2.2 = none) ∧
    (∀ (filtered : Frame) (ch : String) (order : List String) (k : Nat)
        (hk : k < order.length),
      ((List.range filtered.dates.length).filter fun i =>
          (weekdayNamesCol filtered).getD i none ==
            some (order.get ⟨k, hk⟩)) = [] →
      (weekdaySeriesFor filtered ch order).getD k none = some 0) := by
  constructor
  · intro df channels CHANNELSkeys ct cd now hempty r hr
    obtain ⟨ch, hch, hg⟩ := List.mem_filterMap.mp hr
    by_cases hc : CHANNELSkeys.contains ch
    · rw [if_pos hc] at hg
      have hw : windowVals df ch (periodCompWindow df ct cd).1
          (periodCompWindow df ct cd).2 = [] := by
        unfold windowVals
        rw [hempty]
        rfl
      injection hg with hg
      subst hg
      simp only
      rw [hw]
      exact ⟨rfl, rfl⟩
    · rw [if_neg hc] at hg
      cases hg
  · intro filtered ch order k hk hempty
    unfold weekdaySeriesFor
    rw [getD_map_get hk]
    simp only [hempty, List.isEmpty_nil, if_true]

/-- C7, witness: the amended theorem on a one-row 2023 table — part one
with an explicit 2025 window containing no rows (both means and the
difference come out absent), part two at the rowless Tuesday slot of
the full weekday order. -/
theorem c7_degenerate_inputs_witness :
    (((("뉴스A", none, none, none) :
        String × Option ℚ × Option ℚ × Option ℚ)).2.2.1 = none ∧
      ((("뉴스A", none, none, none) :
        String × Option ℚ × Option ℚ × Option ℚ)).2.2.2 = none) ∧
    (weekdaySeriesFor
        { cols := [("뉴스A", [Cell.num 1])], origDate := ["230102"],
          dates := [some ⟨2023, 1, 2⟩], weekday := [some 0],
          dateColName := "날짜" }
        "뉴스A" (weekdayOrderFor "(주중+주말)").1).getD 1 none = some 0 :=
  ⟨c7_degenerate_inputs.1
      { cols := [("뉴스A", [Cell.num 1])], origDate := ["230102"],
        dates := [some ⟨2023, 1, 2⟩], weekday := [some 0],
        dateColName := "날짜" }
      ["뉴스A"] ["뉴스A"] "최근 6개월" (some (⟨2025, 1, 1⟩, ⟨2025, 2, 1⟩))
      ⟨2023, 1, 1⟩ (by decide) ("뉴스A", none, none, none) (by decide),
    c7_degenerate_inputs.2
      { cols := [("뉴스A", [Cell.num 1])], origDate := ["230102"],
        dates := [some ⟨2023, 1, 2⟩], weekday := [some 0],
        dateColName := "날짜" }
      "뉴스A" (weekdayOrderFor "(주중+주말)").1 1 (by decide) (by decide)⟩

/-! ## Claim C9: properties of the correlation analysis -/

theorem zip_self_eq_map {α : Type _} (l : List α) :
    l.zip l = l.map fun a => (a, a) := by
  induction l with
  | nil => rfl
  | cons a t ih => simp [List.zip_cons_cons, ih]

/-- Pairwise completion of a column against itself. -/
theorem pairComplete_self (xs : List (Option ℚ)) :
    pairComplete xs xs = (xs.filterMap id).map fun v => (v, v) := by
  unfold pairComplete
  rw [zip_self_eq_map, List.filterMap_map]
  induction xs with
  | nil => rfl
  | cons a t ih =>
    cases a <;> simp_all [List.filterMap_cons]

/-- Pairwise completion is symmetric up to swapping. -/
theorem pairComplete_swap (xs ys : List (Option ℚ)) :
    pairComplete ys xs = (pairComplete xs ys).map Prod.swap := by
  induction xs generalizing ys with
  | nil => cases ys <;> rfl
  | cons a t ih =>
    cases ys with
    | nil => rfl
    | cons b u =>
      cases a <;> cases b <;>
        simp [pairComplete, List.zip_cons_cons, List.filterMap_cons] <;>
        exact ih u

theorem covXY_comm (a b : List ℚ) : covXY a b = covXY b a := by
  unfold covXY
  have h : b.zip a = (a.zip b).map Prod.swap := (List.zip_swap a b).symm
  rw [h, List.map_map]
  apply congrArg List.sum
  congr 1
  funext p
  exact mul_comm _ _

/-- The correlation matrix is symmetric. -/
theorem corrEnc_symm (xs ys : List (Option ℚ)) :
    corrEnc xs ys = corrEnc ys xs := by
  simp only [corrEnc]
  rw [pairComplete_swap xs ys]
  simp only [List.map_map]
  have h1 : ((fun p => p.1) ∘ Prod.swap : ℚ × ℚ → ℚ) = fun p => p.2 := rfl
  have h2 : ((fun p => p.2) ∘ Prod.swap : ℚ × ℚ → ℚ) = fun p => p.1 := rfl
  rw [h1, h2]
  rw [covXY_comm ((pairComplete xs ys).map fun p => p.2)
    ((pairComplete xs ys).map fun p => p.1)]
  rw [mul_comm (covXY ((pairComplete xs ys).map fun p => p.2) _)
    (covXY ((pairComplete xs ys).map fun p => p.1) _)]

theorem sum_nonneg_eq_zero {l : List ℚ} (hn : ∀ x ∈ l, 0 ≤ x)
    (h : l.sum = 0) : ∀ x ∈ l, x = 0 := by
  induction l with
  | nil => intro x hx; cases hx
  | cons a t ih =>
    rw [List.sum_cons] at h
    have ht : 0 ≤ t.sum :=
      List.sum_nonneg fun x hx => hn x (List.mem_cons_of_mem a hx)
    have ha : 0 ≤ a := hn a (List.mem_cons_self a t)
    have ha0 : a = 0 := le_antisymm (by linarith) ha
    have ht0 : t.sum = 0 := by linarith
    intro x hx
    rcases List.mem_cons.mp hx with rfl | hx'
    · exact ha0
    · exact ih (fun y hy => hn y (List.mem_cons_of_mem a hy)) ht0 x hx'

theorem covXY_self_eq (v : List ℚ) :
    covXY v v = (v.map fun x => (x - mean v) * (x - mean v)).sum := by
  unfold covXY
  rw [zip_self_eq_map, List.map_map]
  rfl

theorem covXY_self_nonneg (v : List ℚ) : 0 ≤ covXY v v := by
  rw [covXY_self_eq]
  refine List.sum_nonneg fun x hx => ?_
  obtain ⟨y, _, rfl⟩ := List.mem_map.mp hx
  exact mul_self_nonneg _

theorem eq_mean_of_covXY_self_eq_zero {v : List ℚ} (h : covXY v v = 0) :
    ∀ x ∈ v, x = mean v := by
  rw [covXY_self_eq] at h
  intro x hx
  have hz := sum_nonneg_eq_zero
    (fun y hy => by
      obtain ⟨z, _, rfl⟩ := List.mem_map.mp hy
      exact mul_self_nonneg _)
    h ((x - mean v) * (x - mean v)) (List.mem_map.mpr ⟨x, hx, rfl⟩)
  have hx0 : x - mean v = 0 := mul_self_eq_zero.mp hz
  linarith

/-- The diagonal of the correlation matrix over a non-constant series
is exactly 1. -/
theorem corrEnc_self (xs : List (Option ℚ))
    (h : ∃ a ∈ xs.filterMap id, ∃ b ∈ xs.filterMap id, a ≠ b) :
    corrEnc xs xs = 1 := by
  obtain ⟨a, ha, b, hb, hab⟩ := h
  simp only [corrEnc]
  rw [pairComplete_self]
  have hfst : (((xs.filterMap id).map fun v => (v, v)).map fun p => p.1) =
      xs.filterMap id := by
    rw [List.map_map]
    have hco : ((fun p : ℚ × ℚ => p.1) ∘ fun v : ℚ => (v, v)) = id := rfl
    rw [hco, List.map_id]
  have hsnd : (((xs.filterMap id).map fun v => (v, v)).map fun p => p.2) =
      xs.filterMap id := by
    rw [List.map_map]
    have hco : ((fun p : ℚ × ℚ => p.2) ∘ fun v : ℚ => (v, v)) = id := rfl
    rw [hco, List.map_id]
  rw [hfst, hsnd]
  have hne : covXY (xs.filterMap id) (xs.filterMap id) ≠ 0 := fun h0 =>
    hab (by
      rw [eq_mean_of_covXY_self_eq_zero h0 a ha,
        eq_mean_of_covXY_self_eq_zero h0 b hb])
  have hpos : 0 < covXY (xs.filterMap id) (xs.filterMap id) :=
    lt_of_le_of_ne (covXY_self_nonneg _) (Ne.symm hne)
  rw [abs_of_pos hpos]
  exact div_self (mul_ne_zero hne hne)

/-- C9: for every correlation-analysis call on at least two channels,
over the window the call restricts to: the matrix is symmetric, every
diagonal entry over a non-constant series equals 1 exactly (hence
within 1e-9 — coefficients are kept under the strictly monotone
encoding `m(r) = sign(r)·r²`, and `m(r) = 1` iff `r = 1`), and the
returned flattened list contains every unordered channel pair of the
upper triangle exactly once (it is a permutation of `corrPairsOf`,
which enumerates the pairs `i < j`) sorted by descending absolute
coefficient. -/
theorem c9_correlation (df : Frame) (channels : List String)
    (ap : Option Nat) (cd : Option (CalDate × CalDate))
    (_h2 : 2 ≤ channels.length) :
    (∀ ch1 ch2 : String,
      corrEnc (getColQ (correlationRecent df ap cd) ch1)
          (getColQ (correlationRecent df ap cd) ch2) =
        corrEnc (getColQ (correlationRecent df ap cd) ch2)
          (getColQ (correlationRecent df ap cd) ch1)) ∧
    (∀ ch : String,
      (∃ a ∈ (getColQ (correlationRecent df ap cd) ch).filterMap id,
        ∃ b ∈ (getColQ (correlationRecent df ap cd) ch).filterMap id,
          a ≠ b) →
      corrEnc (getColQ (correlationRecent df ap cd) ch)
          (getColQ (correlationRecent df ap cd) ch) = 1) ∧
    ((createCorrelationData df channels ap cd).1.Perm
      (corrPairsOf (correlationRecent df ap cd) channels)) ∧
    List.Sorted corrRel (createCorrelationData df channels ap cd).1 :=
  ⟨fun _ _ => corrEnc_symm _ _,
    fun _ h => corrEnc_self _ h,
    List.perm_insertionSort corrRel _,
    List.sorted_insertionSort corrRel _⟩

/-- C9, witness: on a concrete two-channel two-row frame — the diagonal
at the non-constant channel `뉴스A` is 1, and the sorted pair list is a
permutation of the upper triangle, sorted by descending absolute
coefficient. -/
theorem c9_correlation_witness :
    corrEnc
        (getColQ (correlationRecent
          { cols := [("뉴스A", [Cell.num 1, Cell.num 2]),
              ("JTBC뉴스룸", [Cell.num 2, Cell.num 1])],
            origDate := ["230101", "230102"],
            dates := [some ⟨2023, 1, 1⟩, some ⟨2023, 1, 2⟩],
            weekday := [some 6, some 0], dateColName := "날짜" }
          none none) "뉴스A")
        (getColQ (correlationRecent
          { cols := [("뉴스A", [Cell.num 1, Cell.num 2]),
              ("JTBC뉴스룸", [Cell.num 2, Cell.num 1])],
            origDate := ["230101", "230102"],
            dates := [some ⟨2023, 1, 1⟩, some ⟨2023, 1, 2⟩],
            weekday := [some 6, some 0], dateColName := "날짜" }
          none none) "뉴스A") = 1 ∧
    ((createCorrelationData
        { cols := [("뉴스A", [Cell.num 1, Cell.num 2]),
            ("JTBC뉴스룸", [Cell.num 2, Cell.num 1])],
          origDate := ["230101", "230102"],
          dates := [some ⟨2023, 1, 1⟩, some ⟨2023, 1, 2⟩],
          weekday := [some 6, some 0], dateColName := "날짜" }
        ["뉴스A", "JTBC뉴스룸"] none none).1.Perm
      (corrPairsOf
        (correlationRecent
          { cols := [("뉴스A", [Cell.num 1, Cell.num 2]),
              ("JTBC뉴스룸", [Cell.num 2, Cell.num 1])],
            origDate := ["230101", "230102"],
            dates := [some ⟨2023, 1, 1⟩, some ⟨2023, 1, 2⟩],
            weekday := [some 6, some 0], dateColName := "날짜" }
          none none) ["뉴스A", "JTBC뉴스룸"])) ∧
    List.Sorted corrRel
      (createCorrelationData
        { cols := [("뉴스A", [Cell.num 1, Cell.num 2]),
            ("JTBC뉴스룸", [Cell.num 2, Cell.num 1])],
          origDate := ["230101", "230102"],
          dates := [some ⟨2023, 1, 1⟩, some ⟨2023, 1, 2⟩],
          weekday := [some 6, some 0], dateColName := "날짜" }
        ["뉴스A", "JTBC뉴스룸"] none none).1 :=
  ⟨(c9_correlation
      { cols := [("뉴스A", [Cell.num 1, Cell.num 2]),
          ("JTBC뉴스룸", [Cell.num 2, Cell.num 1])],
        origDate := ["230101", "230102"],
        dates := [some ⟨2023, 1, 1⟩, some ⟨2023, 1, 2⟩],
        weekday := [some 6, some 0], dateColName := "날짜" }
      ["뉴스A", "JTBC뉴스룸"] none none (by decide)).2.1 "뉴스A"
      (by with_unfolding_all decide),
    (c9_correlation
      { cols := [("뉴스A", [Cell.num 1, Cell.num 2]),
          ("JTBC뉴스룸", [Cell.num 2, Cell.num 1])],
        origDate := ["230101", "230102"],
        dates := [some ⟨2023, 1, 1⟩, some ⟨2023, 1, 2⟩],
        weekday := [some 6, some 0], dateColName := "날짜" }
      ["뉴스A", "JTBC뉴스룸"] none none (by decide)).2.2.1,
    (c9_correlation
      { cols := [("뉴스A", [Cell.num 1, Cell.num 2]),
          ("JTBC뉴스룸", [Cell.num 2, Cell.num 1])],
        origDate := ["230101", "230102"],
        dates := [some ⟨2023, 1, 1⟩, some ⟨2023, 1, 2⟩],
        weekday := [some 6, some 0], dateColName := "날짜" }
      ["뉴스A", "JTBC뉴스룸"] none none (by decide)).2.2.2⟩
